import Mathlib

/-!
Verification development for the build-target addressing and discovery layer
(spec parsing, single-address resolution with suggestions, recursive scanning
with ignore/exclude filtering, fail-fast vs aggregate batch scanning) and the
process-container utilities (`containerutil.py`, `process_container_wrapper.py`).

The address-mapper component itself (`BuildFileAddressMapper`,
`CmdLineSpecParser`) is not part of the source tree under verification (only
its test file is), so the mapper definitions below are modelled from the
specification, kept consistent with the behaviour pinned by the test file.
The container-wrapper definitions are translated directly from the Python
sources.

Paths relative to the build root are embedded as segment lists
(`List String`); the canonical slash-separated string is recovered by
`pathStr`.  Filesystem-dependent behaviour (directory listing, file
interpretation, `os.path.isfile` etc.) is made explicit: the directory
provider becomes a finite enumeration of directories with their
build-definition files, the build-file interpreter becomes each file's
`Except`-valued content, and the container wrappers take an `FS` record of
predicates.
-/

/-- Boolean test that list `p` is an initial run of list `l`. -/
def startsWithB [DecidableEq α] : List α → List α → Bool
  | [], _ => true
  | _ :: _, [] => false
  | a :: as, b :: bs => if a = b then startsWithB as bs else false

/-- Boolean test that `pat` occurs contiguously inside `l`. -/
def containsSeqB [DecidableEq α] (pat : List α) : List α → Bool
  | [] => startsWithB pat []
  | a :: rest => startsWithB pat (a :: rest) || containsSeqB pat rest

/-- `s` occurs contiguously inside `t` (string containment, via char lists). -/
def ContainsStr (s t : String) : Prop :=
  ∃ u v, t.data = u ++ s.data ++ v

/-- `s` is a terminal run of `t`. -/
def EndsStr (s t : String) : Prop :=
  ∃ u, t.data = u ++ s.data

/-- Render a root-relative segment path as its slash-separated string
(empty list = build root = `""`). -/
def pathStr : List String → String
  | [] => ""
  | [s] => s
  | s :: rest => s ++ "/" ++ pathStr rest

/-- Split a character list at `'/'` boundaries into raw segments
(`acc` holds the chars of the current segment, reversed). -/
def splitSlashAux : List Char → List Char → List String
  | [], acc => [String.mk acc.reverse]
  | c :: rest, acc =>
    if c = '/' then String.mk acc.reverse :: splitSlashAux rest []
    else splitSlashAux rest (c :: acc)

/-- Normalization of path segments: empty segments and `.` are dropped,
`..` removes the previous segment (modelled from the spec:
"`.` and `..` path segments are normalized away"). -/
def normSegs (l : List String) : List String :=
  l.foldl
    (fun acc s =>
      if s = "" || s = "." then acc
      else if s = ".." then acc.dropLast
      else acc ++ [s]) []

/-- Split a character list at its LAST `':'`: returns the part before and the
part after that colon, or `none` when no colon occurs. -/
def rpartitionColon : List Char → Option (List Char × List Char)
  | [] => none
  | c :: rest =>
    match rpartitionColon rest with
    | some (p, n) => some (c :: p, n)
    | none => if c = ':' then some ([], rest) else none

/-- Join strings with `", "` between them. -/
def joinComma : List String → String
  | [] => ""
  | [s] => s
  | s :: rest => s ++ ", " ++ joinComma rest

/-- An address: a root-relative directory path plus a target name unique among
the declarations at that path. -/
structure Address where
  spec_path : List String
  target_name : String
deriving DecidableEq

/-- Canonical spec string of an address: `path:name`, the empty path rendering
as `:name`. -/
def Address.spec (a : Address) : String :=
  pathStr a.spec_path ++ ":" ++ a.target_name

instance {ε α : Type} [DecidableEq ε] [DecidableEq α] : DecidableEq (Except ε α)
  | .error a, .error b =>
    if h : a = b then isTrue (by rw [h]) else isFalse (by intro hc; cases hc; exact h rfl)
  | .error _, .ok _ => isFalse (by intro hc; cases hc)
  | .ok _, .error _ => isFalse (by intro hc; cases hc)
  | .ok a, .ok b =>
    if h : a = b then isTrue (by rw [h]) else isFalse (by intro hc; cases hc; exact h rfl)

/-- A build-definition file: its file name within the directory and the result
of interpreting it — either the declared target names, in declaration order,
or a syntax/semantic error message.  (Modelled from the spec: the build-file
interpreter is an external collaborator returning addressable declarations or
failing with an error identifying the offending file.) -/
structure BFile where
  name : String
  content : Except String (List String)
deriving DecidableEq

/-- A directory known to the directory provider: its root-relative path and
its build-definition files. (Modelled from the spec: the directory provider
is an external collaborator enumerating build files and directories.) -/
structure DirEntry where
  path : List String
  files : List BFile
deriving DecidableEq

/-- The filesystem snapshot seen by the address mapper: the finite enumeration
of directories, in traversal order. -/
abbrev ProjectTree := List DirEntry

/-- The three spec patterns produced by the spec parser.  A `single` spec's
name is `none` when the raw form had no colon and no final path segment to
default from. -/
inductive Spec where
  | single (path : List String) (name : Option String)
  | siblings (path : List String)
  | descendants (path : List String)
deriving DecidableEq

/-- Render a spec pattern back to its canonical command-line form. -/
def Spec.render : Spec → String
  | .single p (some n) => pathStr p ++ ":" ++ n
  | .single p none => pathStr p
  | .siblings p => pathStr p ++ ":"
  | .descendants p => pathStr p ++ "::"

/-- Address-mapper configuration: directory-pruning patterns for recursive
walks and exclude patterns matched against an address's full spec string.
Patterns are embedded as boolean predicates. -/
structure MapperConfig where
  build_ignore_patterns : List (List String → Bool)
  exclude_target_regexps : List (String → Bool)

/-- The resolution error family (modelled from the spec's error taxonomy). -/
inductive MapperError where
  | invalidAddressError (msg : String)
  | invalidBuildFileReference (msg : String)
  | addressNotInBuildFile (msg : String)
  | emptyBuildFileError (msg : String)
  | invalidRootError (msg : String)
  | buildFileScanError (msg : String)
  | interpretationError (file : String) (msg : String)
deriving DecidableEq

/-- Append `s` to an error's message, keeping its kind (used by
`spec_to_address` to record the spec being translated). -/
def MapperError.withSuffix (s : String) : MapperError → MapperError
  | .invalidAddressError m => .invalidAddressError (m ++ s)
  | .invalidBuildFileReference m => .invalidBuildFileReference (m ++ s)
  | .addressNotInBuildFile m => .addressNotInBuildFile (m ++ s)
  | .emptyBuildFileError m => .emptyBuildFileError (m ++ s)
  | .invalidRootError m => .invalidRootError (m ++ s)
  | .buildFileScanError m => .buildFileScanError (m ++ s)
  | .interpretationError f m => .interpretationError f (m ++ s)

/-- Does the address's full spec string match one of the configured
exclude patterns? -/
def excludedBy (cfg : MapperConfig) (a : Address) : Bool :=
  cfg.exclude_target_regexps.any (fun f => f a.spec)

/-- Does a directory path match one of the configured ignore patterns? -/
def matchesIgnoreB (cfg : MapperConfig) (p : List String) : Bool :=
  cfg.build_ignore_patterns.any (fun f => f p)

/-- A directory `q` is pruned from a walk rooted at `root` when some directory
on the walk from `root` down to `q` (inclusive) matches an ignore pattern. -/
def effIgnoredB (cfg : MapperConfig) (root q : List String) : Bool :=
  (List.range (q.length + 1)).any
    (fun k => startsWithB root (q.take k) && matchesIgnoreB cfg (q.take k))

/-- File identity of a build file within a directory (root-relative path of
the file). -/
def joinFile (dirPath : List String) (name : String) : String :=
  if dirPath = [] then name else pathStr dirPath ++ "/" ++ name

/-- Interpret a directory's build files in order, producing the combined
`(file identity, declared name)` pairs, or the first interpretation error
`(file identity, raw message)`. (Modelled from the spec: declarations from all
files at a path are combined; interpreter errors propagate unchanged.) -/
def interpret_files (dirPath : List String) : List BFile → Except (String × String) (List (String × String))
  | [] => .ok []
  | f :: fs =>
    match f.content with
    | .error m => .error (joinFile dirPath f.name, m)
    | .ok names =>
      match interpret_files dirPath fs with
      | .error e => .error e
      | .ok rest => .ok (names.map (fun n => (joinFile dirPath f.name, n)) ++ rest)

/-- The build-definition files the directory provider reports at a path. -/
def dir_files (tree : ProjectTree) (p : List String) : List BFile :=
  match tree.find? (fun d => d.path == p) with
  | none => []
  | some d => d.files

/-- Interpreter error message as surfaced by the mapper: the raw message
followed by the offending file's identity (modelled from the spec: the error
identifies the offending file). -/
def interpErrMsg (file rawMsg : String) : String :=
  rawMsg ++ "\n while executing BUILD file BuildFile(" ++ file ++ ")"

/-- Suggestion ordering for "perhaps you meant" lists: by target name. -/
def pairNameLE (x y : String × String) : Prop := x.2 ≤ y.2

instance : DecidableRel pairNameLE := fun x y =>
  inferInstanceAs (Decidable (x.2 ≤ y.2))

instance : IsTotal (String × String) pairNameLE :=
  ⟨fun x y => le_total x.2 y.2⟩

instance : IsTrans (String × String) pairNameLE :=
  ⟨fun _ _ _ h h' => le_trans h h'⟩

/-- The `AddressNotInBuildFile` message: names the missing target and path and
suggests the names that are declared there.  All names from one file: a flat
sorted name list; names from several files: one line per name, `:name (from
file)`, sorted by name.  (Modelled from the spec's suggestion rendering; the
test file pins each suggested name to be rendered with a leading colon.) -/
def notFoundMsg (a : Address) (pairs : List (String × String)) : String :=
  let sorted := List.insertionSort pairNameLE pairs
  a.target_name ++ " was not found in BUILD files from " ++ pathStr a.spec_path ++ ". " ++
    (if ((pairs.map Prod.fst).dedup).length == 1 then
      "Perhaps you meant:" ++ String.join (sorted.map (fun pr => "\n  :" ++ pr.2))
    else
      "Perhaps you meant one of:" ++
        String.join (sorted.map (fun pr => "\n  :" ++ pr.2 ++ " (from " ++ pr.1 ++ ")")))

/-- Single-address resolution (modelled from the spec, §4.2): exclude check,
file discovery, interpretation, emptiness check, lookup, suggestions.
Success returns the owning file's identity with the address. -/
def resolve (cfg : MapperConfig) (tree : ProjectTree) (a : Address) :
    Except MapperError (String × Address) :=
  if excludedBy cfg a then
    .error (.invalidAddressError (a.spec ++ " is excluded by exclude_target_regexp option"))
  else
    let files := dir_files tree a.spec_path
    if files.isEmpty then
      .error (.invalidBuildFileReference (pathStr a.spec_path ++ " does not contain any BUILD files."))
    else
      match interpret_files a.spec_path files with
      | .error (f, m) => .error (.interpretationError f (interpErrMsg f m))
      | .ok pairs =>
        if pairs.isEmpty then
          .error (.emptyBuildFileError ("No addresses defined in BUILD files at " ++ pathStr a.spec_path ++ "."))
        else
          match pairs.find? (fun pr => pr.2 == a.target_name) with
          | some pr => .ok (pr.1, a)
          | none => .error (.addressNotInBuildFile (notFoundMsg a pairs))

/-- Sibling-scope listing (modelled from the spec, §4.3): every declared name
at the path as an address, filtered by the exclude patterns; a path with no
build files yields the empty set, not an error. -/
def addresses_in_spec_path (cfg : MapperConfig) (tree : ProjectTree) (p : List String) :
    Except MapperError (List Address) :=
  let files := dir_files tree p
  if files.isEmpty then .ok []
  else
    match interpret_files p files with
    | .error (f, m) => .error (.interpretationError f (interpErrMsg f m))
    | .ok pairs =>
      if pairs.isEmpty then
        .error (.emptyBuildFileError ("No addresses defined in BUILD files at " ++ pathStr p ++ "."))
      else
        .ok ((pairs.map (fun pr => Address.mk p pr.2)).filter (fun a => !excludedBy cfg a))

/-- Leading `//` detection: an absolute-from-build-root raw spec. -/
def stripAbs (l : List Char) : Bool × List Char :=
  if startsWithB ['/', '/'] l then (true, l.drop 2) else (false, l)

/-- Resolve a raw path against `relative_to` and normalize
(modelled from the spec, §4.1). -/
def parsePath (abs : Bool) (rel : List String) (cs : List Char) : List String :=
  normSegs ((if abs then [] else rel) ++ splitSlashAux cs [])

/-- The spec parser (modelled from the spec, §4.1): `//` marks absolute;
trailing `::` is Descendants, trailing `:` is Siblings, `:name` is Single with
explicit name; no colon is Single with the name defaulted to the last
normalized path segment. -/
def parse_spec (raw : String) (rel : List String) : Spec :=
  let ac := stripAbs raw.data
  match rpartitionColon ac.2 with
  | none =>
    let p := parsePath ac.1 rel ac.2
    Spec.single p p.getLast?
  | some (pc, nc) =>
    if nc.isEmpty then
      match pc.getLast? with
      | some ':' => Spec.descendants (parsePath ac.1 rel pc.dropLast)
      | _ => Spec.siblings (parsePath ac.1 rel pc)
    else Spec.single (parsePath ac.1 rel pc) (some (String.mk nc))

/-- Compose the spec parser (forcing a Single spec) with `resolve`
(modelled from the spec, §4.2): non-Single parses and Singles with no
determinable name fail with `InvalidBuildFileReference`; resolution errors are
annotated with the spec being translated. -/
def spec_to_address (cfg : MapperConfig) (tree : ProjectTree) (raw : String) (rel : List String) :
    Except MapperError Address :=
  match parse_spec raw rel with
  | .single p (some n) =>
    match resolve cfg tree (Address.mk p n) with
    | .ok r => .ok r.2
    | .error e => .error (e.withSuffix ("\n when translating spec " ++ raw))
  | _ =>
    .error (.invalidBuildFileReference
      ("Spec " ++ raw ++ " has no name part\n when translating spec " ++ raw))

/-- A per-directory failure collected during a scan: the offending file, the
directory, and the interpreter's raw message. -/
structure DirErr where
  file : String
  dirPath : List String
  msg : String
deriving DecidableEq

/-- Rendering of a collected scan failure: the interpreter error annotated
with its build file and the directory whose loading failed (modelled from the
spec: "each annotated with its offending build-definition file and path"). -/
def renderDirErr (e : DirErr) : String :=
  interpErrMsg e.file e.msg ++ "\n Loading addresses from '" ++ pathStr e.dirPath ++ "' failed."

/-- The directories a Siblings or Descendants spec visits: for Siblings the
path's own directory; for Descendants every directory at or beneath the path
that is not pruned by an ignore pattern (modelled from the spec, §4.4:
matching directories are pruned, nothing beneath them is visited). -/
def spec_dirs (cfg : MapperConfig) (tree : ProjectTree) : Spec → List DirEntry
  | .single _ _ => []
  | .siblings p => tree.filter (fun d => d.path == p)
  | .descendants p =>
    tree.filter (fun d => startsWithB p d.path && !effIgnoredB cfg p d.path)

/-- Walk a directory list: union the declared addresses (exclude-filtered) of
the cleanly-interpreting directories and collect one `DirErr` per failing
directory, in walk order (modelled from the spec, §4.5: interpretation errors
are caught per-directory and accumulated; the walk continues). -/
def walk_dirs (cfg : MapperConfig) : List DirEntry → List Address × List DirErr
  | [] => ([], [])
  | d :: rest =>
    let r := walk_dirs cfg rest
    match interpret_files d.path d.files with
    | .error (f, m) => (r.1, DirErr.mk f d.path m :: r.2)
    | .ok pairs =>
      ((pairs.map (fun pr => Address.mk d.path pr.2)).filter (fun a => !excludedBy cfg a) ++ r.1,
       r.2)

/-- Per-spec collection for batch scanning: Single specs resolve immediately
(their errors abort the batch regardless of `fail_fast`); Siblings and
Descendants specs contribute their walked addresses and per-directory errors
(modelled from the spec, §4.5). -/
def collect_specs (cfg : MapperConfig) (tree : ProjectTree) :
    List Spec → Except MapperError (List Address × List DirErr)
  | [] => .ok ([], [])
  | s :: rest =>
    match s with
    | .single p name? =>
      match name? with
      | none =>
        .error (.invalidBuildFileReference ("Spec " ++ pathStr p ++ " has no name part"))
      | some n =>
        match resolve cfg tree (Address.mk p n) with
        | .error e => .error e
        | .ok r =>
          match collect_specs cfg tree rest with
          | .error e => .error e
          | .ok acc => .ok (r.2 :: acc.1, acc.2)
    | _ =>
      let w := walk_dirs cfg (spec_dirs cfg tree s)
      match collect_specs cfg tree rest with
      | .error e => .error e
      | .ok acc => .ok (w.1 ++ acc.1, w.2 ++ acc.2)

/-- Aggregate error message for a `fail_fast = false` batch scan: every
collected failure, each preceded by a delimiter line, followed by a summary
naming the spec set (modelled from the spec, §4.5). -/
def render_entries : List String → String
  | [] => ""
  | e :: es => "--------------------\n" ++ e ++ "\n" ++ render_entries es

/-- The final aggregate message raised after a failing `fail_fast = false`
scan. -/
def aggregate_msg (errs : List DirErr) (specs : List Spec) : String :=
  render_entries (errs.map renderDirErr) ++
    "Invalid BUILD files for [" ++ joinComma (specs.map Spec.render) ++ "]"

/-- Batch spec scanning (modelled from the spec, §4.5): resolve every spec,
deduplicate the union; with `fail_fast` the first collected directory error is
raised alone, verbatim; without it all collected errors are raised as one
aggregate error. -/
def scan_specs (cfg : MapperConfig) (tree : ProjectTree) (specs : List Spec) (fail_fast : Bool) :
    Except MapperError (List Address) :=
  match collect_specs cfg tree specs with
  | .error e => .error e
  | .ok (as, errs) =>
    match errs with
    | [] => .ok as.dedup
    | e :: _ =>
      if fail_fast then .error (.buildFileScanError (renderDirErr e))
      else .error (.buildFileScanError (aggregate_msg errs specs))

/-- Translate a supplied absolute scan root to a root-relative segment path:
`none` when the root is not the build root or a descendant of it (modelled
from the spec, §4.4). -/
def rel_root (buildRoot : String) : Option String → Option (List String)
  | none => some []
  | some r =>
    if r = buildRoot then some []
    else if startsWithB (buildRoot.data ++ ['/']) r.data then
      some (normSegs (splitSlashAux (r.data.drop (buildRoot.data.length + 1)) []))
    else none

/-- Recursive subtree scanning (modelled from the spec, §4.4): the root must
be the build root or a descendant of it, the walk prunes ignored directories,
and the first directory error aborts the scan. -/
def scan_addresses (cfg : MapperConfig) (tree : ProjectTree) (buildRoot : String)
    (rootOpt : Option String) : Except MapperError (List Address) :=
  match rel_root buildRoot rootOpt with
  | none =>
    .error (.invalidRootError
      ("Could not find scan root under build root " ++ buildRoot ++ "."))
  | some rel =>
    let w := walk_dirs cfg (spec_dirs cfg tree (Spec.descendants rel))
    match w.2 with
    | [] => .ok w.1.dedup
    | e :: _ => .error (.buildFileScanError (renderDirErr e))

/-!
## Process-container wrappers

Translated from `src/src/python/pants/util/containerutil.py` and
`src/src/python/pants/util/process_container_wrapper.py`.  The filesystem
queries (`os.path.isfile`, `os.path.isdir`, `os.access(..., X_OK)`) become an
explicit `FS` record of predicates, and the subprocess-backed
`find_dependencies` becomes an explicit function parameter.  `add_executable`
additionally reports the list of paths on which dependency discovery was
invoked, so that short-circuiting of `find_dependencies` is observable.

Python's `path[0]` on an empty string raises `IndexError` before the `'/'`
comparison can run, so the error type distinguishes that case.
-/

/-- Filesystem predicates consulted by the wrappers. -/
structure FS where
  isFile : String → Bool
  isDir : String → Bool
  accessXOk : String → Bool

/-- The errors the `add_*` operations can raise: the wrapper's own
`NotAbsolutePathError`, or Python's `IndexError` from subscripting an empty
path string. -/
inductive PathErr where
  | notAbsolutePathError (msg : String)
  | indexError
deriving DecidableEq

/-- Discriminator: is this error the wrapper's `NotAbsolutePathError`? -/
def PathErr.isNotAbsolute : PathErr → Bool
  | .notAbsolutePathError _ => true
  | .indexError => false

/-- `containerutil.ProcessContainerWrapper` state: `plain_files` and `dirs`
are Python sets (modelled as insertion-ordered lists without duplicates),
`exe_dict` is a dict from executable path to its dependency tuple (modelled as
an insertion-ordered association list). -/
structure ContainerUtilWrapper where
  plain_files : List String
  exe_dict : List (String × List String)
  dirs : List String
deriving DecidableEq

/-- Python `set.add`: insert if absent. -/
def setAdd (l : List String) (s : String) : List String :=
  if s ∈ l then l else l ++ [s]

/-- `containerutil.ProcessContainerWrapper._is_executable`. -/
def cu_is_executable (fs : FS) (file_path : String) : Bool :=
  fs.isFile file_path && fs.accessXOk file_path

/-- `containerutil.ProcessContainerWrapper.add_plain_file`. -/
def cu_add_plain_file (fs : FS) (w : ContainerUtilWrapper) (file_path : String) :
    Except PathErr ContainerUtilWrapper :=
  match file_path.data with
  | [] => .error .indexError
  | c :: _ =>
    if c ≠ '/' then .error (.notAbsolutePathError "Must provide absolute path for resource file.")
    else .ok (if fs.isFile file_path then
      { w with plain_files := setAdd w.plain_files file_path } else w)

/-- `containerutil.ProcessContainerWrapper.add_executable`.  The second
component of the result records the arguments of the `find_dependencies`
calls the operation performed. -/
def cu_add_executable (fs : FS) (find_dependencies : String → List String)
    (w : ContainerUtilWrapper) (executable : String) :
    Except PathErr (ContainerUtilWrapper × List String) :=
  match executable.data with
  | [] => .error .indexError
  | c :: _ =>
    if c ≠ '/' then .error (.notAbsolutePathError "Must provide absolute path for binary file.")
    else if cu_is_executable fs executable && !(w.exe_dict.any (fun pr => pr.1 == executable)) then
      .ok ({ w with exe_dict := w.exe_dict ++ [(executable, find_dependencies executable)] },
        [executable])
    else .ok (w, [])

/-- `containerutil.ProcessContainerWrapper.add_dir`. -/
def cu_add_dir (fs : FS) (w : ContainerUtilWrapper) (dir_path : String) :
    Except PathErr ContainerUtilWrapper :=
  match dir_path.data with
  | [] => .error .indexError
  | c :: _ =>
    if c ≠ '/' then .error (.notAbsolutePathError "Must provide absolute path for source dir.")
    else .ok (if fs.isDir dir_path then { w with dirs := setAdd w.dirs dir_path } else w)

/-- `process_container_wrapper.ProcessContainerWrapper.Executable`. -/
structure Executable where
  path : String
  dependencies : List String
deriving DecidableEq

/-- `process_container_wrapper.ProcessContainerWrapper` state: both fields are
plain Python lists (appending, duplicates allowed). -/
structure ProcessContainerWrapper where
  resources : List String
  executables : List Executable
deriving DecidableEq

/-- `process_container_wrapper.ProcessContainerWrapper.add_resource`. -/
def pcw_add_resource (fs : FS) (w : ProcessContainerWrapper) (resource_file : String) :
    Except PathErr ProcessContainerWrapper :=
  match resource_file.data with
  | [] => .error .indexError
  | c :: _ =>
    if c ≠ '/' then .error (.notAbsolutePathError "Must provide absolute path for resource file.")
    else .ok (if fs.isFile resource_file then
      { w with resources := w.resources ++ [resource_file] } else w)

/-- `process_container_wrapper.ProcessContainerWrapper.add_executable`: no
membership check, a fresh `Executable` entry is appended whenever the path is
an executable file.  The second component records the `find_dependencies`
calls made. -/
def pcw_add_executable (fs : FS) (find_dependencies : String → List String)
    (w : ProcessContainerWrapper) (binary : String) :
    Except PathErr (ProcessContainerWrapper × List String) :=
  match binary.data with
  | [] => .error .indexError
  | c :: _ =>
    if c ≠ '/' then .error (.notAbsolutePathError "Must provide absolute path for binary file.")
    else if fs.isFile binary && fs.accessXOk binary then
      .ok ({ w with executables := w.executables ++ [Executable.mk binary (find_dependencies binary)] },
        [binary])
    else .ok (w, [])

/-!
## Concrete fixtures

These mirror the scenarios of `test_build_file_address_mapper.py`: the scan
tree (`BUILD` declaring `root`; `a` declaring `a`,`b`; `a/b` declaring
`b`,`c`; broken files under `bad/a` and `bad/b`), the two-file suggestion
scenario, and plain wrappers/filesystems for the container utilities.
-/

/-- Empty mapper configuration: no ignore patterns, no exclude patterns. -/
def cfg0 : MapperConfig := MapperConfig.mk [] []

/-- A clean build file declaring the given names. -/
def okFile (name : String) (names : List String) : BFile :=
  BFile.mk name (.ok names)

/-- A build file whose interpretation fails with the given message. -/
def badFile (name : String) (msg : String) : BFile :=
  BFile.mk name (.error msg)

/-- The scan-test tree with two independently broken directories. -/
def treeScan : ProjectTree :=
  [DirEntry.mk [] [okFile "BUILD" ["root"]],
   DirEntry.mk ["a"] [okFile "BUILD" ["a", "b"]],
   DirEntry.mk ["a", "b"] [okFile "BUILD" ["b", "c"]],
   DirEntry.mk ["bad"] [],
   DirEntry.mk ["bad", "a"] [badFile "BUILD" "name 'a_is_bad' is not defined"],
   DirEntry.mk ["bad", "b"] [badFile "BUILD" "name 'b_is_bad' is not defined"]]

/-- The suggestion-test tree: two build files at the root, one declaring
`foo`, a suffixed one declaring `aoo` and `boo`; `subdir` declares `bar` and
`baz` across two files. -/
def treeSuggest : ProjectTree :=
  [DirEntry.mk [] [okFile "BUILD" ["foo"], okFile "BUILD.suffix" ["aoo", "boo"]],
   DirEntry.mk ["subdir"] [okFile "BUILD" ["bar"], okFile "BUILD.suffix" ["baz"]]]

/-- A tree whose root build file declares only `foo`. -/
def treeOneFile : ProjectTree :=
  [DirEntry.mk [] [okFile "BUILD" ["foo"]]]

/-- A tree whose root build file declares no addressable entities at all. -/
def treeEmptyDecl : ProjectTree :=
  [DirEntry.mk [] [okFile "BUILD" []]]

/-- The exclude pattern `.*:b.*` of the tests: the spec string contains `:b`. -/
def excludeColonB : String → Bool := fun s => containsSeqB [':', 'b'] s.data

/-- Configuration carrying only the `.*:b.*` exclude pattern. -/
def cfgExclude : MapperConfig := MapperConfig.mk [] [excludeColonB]

/-- Configuration ignoring the directory `some`(-rooted subtree). -/
def cfgIgnoreSome : MapperConfig := MapperConfig.mk [fun p => p == ["some"]] []

/-- A filesystem with no files and no directories. -/
def fsEmpty : FS := FS.mk (fun _ => false) (fun _ => false) (fun _ => false)

/-- A filesystem on which `/bin/sh` is an executable file. -/
def fsSh : FS := FS.mk (fun s => s == "/bin/sh") (fun _ => false) (fun s => s == "/bin/sh")

/-- A fresh `containerutil` wrapper. -/
def cuw0 : ContainerUtilWrapper := ContainerUtilWrapper.mk [] [] []

/-- A fresh `process_container_wrapper` wrapper. -/
def pcww0 : ProcessContainerWrapper := ProcessContainerWrapper.mk [] []

/-- A dependency-discovery stub. -/
def depsSh : String → List String := fun _ => ["/lib/libc.so"]

/-- A path segment already in canonical form: non-empty, free of `/` and `:`,
and not a `.` or `..` normalization marker. -/
def cleanSegB (s : String) : Bool :=
  !s.data.isEmpty && s.data.all (fun c => !(c == '/') && !(c == ':')) &&
    !(s == ".") && !(s == "..")

/-- A spec path already in canonical form. -/
def cleanPathB (p : List String) : Bool := p.all cleanSegB

/-- A target name compatible with the spec grammar: non-empty and colon-free. -/
def cleanNameB (n : String) : Bool :=
  !n.data.isEmpty && n.data.all (fun c => !(c == ':'))

/-!
## Basic lemmas
-/

theorem data_append (s t : String) : (s ++ t).data = s.data ++ t.data := rfl

theorem strmk_data (s : String) : String.mk s.data = s := rfl

theorem containsStr_intro (s u v : String) : ContainsStr s (u ++ s ++ v) :=
  ⟨u.data, v.data, by simp [data_append]⟩

theorem containsStr_shift (s u t : String) (h : ContainsStr s t) : ContainsStr s (u ++ t) := by
  obtain ⟨x, y, hxy⟩ := h
  exact ⟨u.data ++ x, y, by simp [data_append, hxy]⟩

theorem containsStr_extend (s t v : String) (h : ContainsStr s t) : ContainsStr s (t ++ v) := by
  obtain ⟨x, y, hxy⟩ := h
  exact ⟨x, y ++ v.data, by simp [data_append, hxy]⟩

theorem endsStr_intro (s u : String) : EndsStr s (u ++ s) :=
  ⟨u.data, by simp [data_append]⟩

theorem startsWithB_eq_true_iff [DecidableEq α] (p l : List α) :
    startsWithB p l = true ↔ ∃ t, p ++ t = l := by
  induction p generalizing l with
  | nil => simp [startsWithB]
  | cons a as ih =>
    cases l with
    | nil => simp [startsWithB]
    | cons b bs =>
      simp only [startsWithB, List.cons_append, List.cons.injEq]
      by_cases hab : a = b
      · subst hab
        rw [if_pos rfl, ih]
        constructor
        · rintro ⟨t, rfl⟩; exact ⟨t, rfl, rfl⟩
        · rintro ⟨t, -, ht⟩; exact ⟨t, ht⟩
      · rw [if_neg hab]
        constructor
        · intro h; exact absurd h (by simp)
        · rintro ⟨t, h1, -⟩; exact absurd h1 hab


/-!
## Container-wrapper claims (C9, C10)
-/

/-- C9 (counterexample): the claim says every add operation raises
`NotAbsolutePathError` whenever the path does not begin with `/`; but for the
empty path — which does not begin with `/` — `add_plain_file` raises
`IndexError` (Python subscripts the path before comparing), not
`NotAbsolutePathError`. -/
theorem c9_empty_path_counterexample :
    cu_add_plain_file fsEmpty cuw0 "" = Except.error PathErr.indexError ∧
      PathErr.indexError.isNotAbsolute = false := by
  constructor
  · rfl
  · rfl

/-- C9 (amended): every add operation of both wrappers raises
`NotAbsolutePathError` whenever the given path is non-empty and does not begin
with `/` (an empty path raises `IndexError` from the subscript instead), and
when the path is absolute but does not name an existing regular file (or
existing directory, for `add_dir`) the call returns normally and leaves the
wrapper's state unchanged (and runs no dependency discovery). -/
theorem c9_add_ops_path_checks :
    (∀ (fs : FS) (fd : String → List String) (w : ContainerUtilWrapper)
        (w2 : ProcessContainerWrapper),
      cu_add_plain_file fs w "" = Except.error PathErr.indexError ∧
      cu_add_executable fs fd w "" = Except.error PathErr.indexError ∧
      cu_add_dir fs w "" = Except.error PathErr.indexError ∧
      pcw_add_resource fs w2 "" = Except.error PathErr.indexError ∧
      pcw_add_executable fs fd w2 "" = Except.error PathErr.indexError) ∧
    (∀ (fs : FS) (fd : String → List String) (w : ContainerUtilWrapper)
        (w2 : ProcessContainerWrapper) (p : String) (c : Char) (t : List Char),
      p.data = c :: t → c ≠ '/' →
      cu_add_plain_file fs w p =
        Except.error (PathErr.notAbsolutePathError "Must provide absolute path for resource file.") ∧
      cu_add_executable fs fd w p =
        Except.error (PathErr.notAbsolutePathError "Must provide absolute path for binary file.") ∧
      cu_add_dir fs w p =
        Except.error (PathErr.notAbsolutePathError "Must provide absolute path for source dir.") ∧
      pcw_add_resource fs w2 p =
        Except.error (PathErr.notAbsolutePathError "Must provide absolute path for resource file.") ∧
      pcw_add_executable fs fd w2 p =
        Except.error (PathErr.notAbsolutePathError "Must provide absolute path for binary file.")) ∧
    (∀ (fs : FS) (fd : String → List String) (w : ContainerUtilWrapper)
        (w2 : ProcessContainerWrapper) (p : String) (t : List Char),
      p.data = '/' :: t →
      (fs.isFile p = false →
        cu_add_plain_file fs w p = Except.ok w ∧
        cu_add_executable fs fd w p = Except.ok (w, []) ∧
        pcw_add_resource fs w2 p = Except.ok w2 ∧
        pcw_add_executable fs fd w2 p = Except.ok (w2, [])) ∧
      (fs.isDir p = false → cu_add_dir fs w p = Except.ok w)) := by
  refine ⟨?_, ?_, ?_⟩
  · intro fs fd w w2
    refine ⟨rfl, rfl, rfl, rfl, rfl⟩
  · intro fs fd w w2 p c t hp hc
    refine ⟨?_, ?_, ?_, ?_, ?_⟩ <;>
      simp [cu_add_plain_file, cu_add_executable, cu_add_dir, pcw_add_resource,
        pcw_add_executable, hp, hc]
  · intro fs fd w w2 p t hp
    constructor
    · intro hf
      refine ⟨?_, ?_, ?_, ?_⟩ <;>
        simp [cu_add_plain_file, cu_add_executable, cu_is_executable, pcw_add_resource,
          pcw_add_executable, hp, hf]
    · intro hd
      simp [cu_add_dir, hp, hd]

/-- C9 witness: the amended behaviour at concrete inputs — a relative path is
rejected with `NotAbsolutePathError` and an absolute path to a missing file
leaves the wrapper untouched. -/
theorem c9_add_ops_path_checks_witness :
    cu_add_plain_file fsEmpty cuw0 "rel/path" =
      Except.error (PathErr.notAbsolutePathError "Must provide absolute path for resource file.") ∧
    cu_add_plain_file fsEmpty cuw0 "/missing" = Except.ok cuw0 := by
  constructor
  · exact (c9_add_ops_path_checks.2.1 fsEmpty depsSh cuw0 pcww0 "rel/path" 'r'
      ['e', 'l', '/', 'p', 'a', 't', 'h'] rfl (by decide)).1
  · exact ((c9_add_ops_path_checks.2.2 fsEmpty depsSh cuw0 pcww0 "/missing"
      ['m', 'i', 's', 's', 'i', 'n', 'g'] rfl).1 rfl).1

/-- C10: `containerutil`'s `add_executable` is idempotent — a repeated call
with a path already present in `exe_dict` leaves the whole wrapper unchanged
and performs no dependency discovery — whereas the `process_container_wrapper`
variant appends a fresh duplicate `Executable` entry (re-running discovery) on
every repeated call. -/
theorem c10_add_executable_idempotence :
    (∀ (fs : FS) (fd : String → List String) (w : ContainerUtilWrapper)
        (e : String) (t : List Char),
      e.data = '/' :: t →
      w.exe_dict.any (fun pr => pr.1 == e) = true →
      cu_add_executable fs fd w e = Except.ok (w, [])) ∧
    (∀ (fs : FS) (fd : String → List String) (w : ProcessContainerWrapper)
        (e : String) (t : List Char),
      e.data = '/' :: t →
      fs.isFile e = true → fs.accessXOk e = true →
      pcw_add_executable fs fd w e =
        Except.ok ({ w with executables := w.executables ++ [Executable.mk e (fd e)] }, [e]) ∧
      (pcw_add_executable fs fd w e).bind (fun r => pcw_add_executable fs fd r.1 e) =
        Except.ok ({ w with
          executables := w.executables ++ [Executable.mk e (fd e), Executable.mk e (fd e)] },
          [e])) := by
  constructor
  · intro fs fd w e t hp hmem
    simp [cu_add_executable, hp, hmem]
  · intro fs fd w e t hp hf hx
    constructor
    · simp [pcw_add_executable, hp, hf, hx]
    · simp [pcw_add_executable, hp, hf, hx, Except.bind]

/-- C10 witness: on a filesystem where `/bin/sh` is executable, re-adding it
to a `containerutil` wrapper that already holds it changes nothing and runs no
discovery, while the `process_container_wrapper` duplicates the entry. -/
theorem c10_add_executable_idempotence_witness :
    cu_add_executable fsSh depsSh
        (ContainerUtilWrapper.mk [] [("/bin/sh", ["/lib/libc.so"])] []) "/bin/sh" =
      Except.ok (ContainerUtilWrapper.mk [] [("/bin/sh", ["/lib/libc.so"])] [], []) ∧
    pcw_add_executable fsSh depsSh
        (ProcessContainerWrapper.mk [] [Executable.mk "/bin/sh" ["/lib/libc.so"]]) "/bin/sh" =
      Except.ok (ProcessContainerWrapper.mk []
        [Executable.mk "/bin/sh" ["/lib/libc.so"], Executable.mk "/bin/sh" ["/lib/libc.so"]],
        ["/bin/sh"]) := by
  constructor
  · exact c10_add_executable_idempotence.1 fsSh depsSh
      (ContainerUtilWrapper.mk [] [("/bin/sh", ["/lib/libc.so"])] []) "/bin/sh"
      ['b', 'i', 'n', '/', 's', 'h'] rfl (by decide)
  · exact (c10_add_executable_idempotence.2 fsSh depsSh
      (ProcessContainerWrapper.mk [] [Executable.mk "/bin/sh" ["/lib/libc.so"]]) "/bin/sh"
      ['b', 'i', 'n', '/', 's', 'h'] rfl (by decide) (by decide)).1

/-!
## Resolution lemmas
-/

theorem resolve_ok_addr (cfg : MapperConfig) (tree : ProjectTree) (a : Address)
    (r : String × Address) (h : resolve cfg tree a = Except.ok r) :
    r.2 = a ∧ excludedBy cfg a = false := by
  by_cases hexc : excludedBy cfg a
  · simp [resolve, hexc] at h
  · refine ⟨?_, by simpa using hexc⟩
    simp only [resolve, hexc, Bool.false_eq_true, if_false] at h
    split at h
    · simp at h
    · split at h
      · simp at h
      · split at h
        · simp at h
        · split at h
          · simp only [Except.ok.injEq] at h
            rw [← h]
          · simp at h

theorem resolve_excluded (cfg : MapperConfig) (tree : ProjectTree) (a : Address)
    (hexc : excludedBy cfg a = true) :
    resolve cfg tree a =
      Except.error (MapperError.invalidAddressError
        (a.spec ++ " is excluded by exclude_target_regexp option")) := by
  simp [resolve, hexc]

/-!
## Claim C3: missing build files and empty build files
-/

/-- C3: resolving an address whose path has no build-definition files fails
with `InvalidBuildFileReference` naming the path (and, through
`spec_to_address`, also naming the spec being translated), and resolving an
address whose path's build files declare zero addressable entities fails with
`EmptyBuildFileError`. -/
theorem c3_missing_and_empty_build_files :
    (∀ (cfg : MapperConfig) (tree : ProjectTree) (p : List String) (n : String),
      excludedBy cfg (Address.mk p n) = false →
      dir_files tree p = [] →
      resolve cfg tree (Address.mk p n) =
        Except.error (MapperError.invalidBuildFileReference
          (pathStr p ++ " does not contain any BUILD files.")) ∧
      ContainsStr (pathStr p) (pathStr p ++ " does not contain any BUILD files.")) ∧
    (∀ (cfg : MapperConfig) (tree : ProjectTree) (raw : String) (rel : List String)
        (p : List String) (n : String),
      parse_spec raw rel = Spec.single p (some n) →
      excludedBy cfg (Address.mk p n) = false →
      dir_files tree p = [] →
      spec_to_address cfg tree raw rel =
        Except.error (MapperError.invalidBuildFileReference
          ((pathStr p ++ " does not contain any BUILD files.") ++
            ("\n when translating spec " ++ raw))) ∧
      ContainsStr (pathStr p)
        ((pathStr p ++ " does not contain any BUILD files.") ++
          ("\n when translating spec " ++ raw)) ∧
      ContainsStr raw
        ((pathStr p ++ " does not contain any BUILD files.") ++
          ("\n when translating spec " ++ raw))) ∧
    (∀ (cfg : MapperConfig) (tree : ProjectTree) (p : List String) (n : String),
      excludedBy cfg (Address.mk p n) = false →
      dir_files tree p ≠ [] →
      interpret_files p (dir_files tree p) = Except.ok [] →
      resolve cfg tree (Address.mk p n) =
        Except.error (MapperError.emptyBuildFileError
          ("No addresses defined in BUILD files at " ++ pathStr p ++ "."))) := by
  refine ⟨?_, ?_, ?_⟩
  · intro cfg tree p n hexc hfiles
    constructor
    · simp [resolve, hexc, hfiles]
    · exact ⟨[], (" does not contain any BUILD files." : String).data, by simp [data_append]⟩
  · intro cfg tree raw rel p n hparse hexc hfiles
    refine ⟨?_, ?_, ?_⟩
    · simp only [spec_to_address, hparse]
      rw [show resolve cfg tree (Address.mk p n) =
        Except.error (MapperError.invalidBuildFileReference
          (pathStr p ++ " does not contain any BUILD files.")) from by
          simp [resolve, hexc, hfiles]]
      simp [MapperError.withSuffix]
    · exact ⟨[],
        ((" does not contain any BUILD files." : String) ++
          ("\n when translating spec " ++ raw)).data, by simp [data_append]⟩
    · exact ⟨((pathStr p ++ " does not contain any BUILD files.") ++
        "\n when translating spec ").data, [], by simp [data_append]⟩
  · intro cfg tree p n hexc hfiles hinterp
    have hne : (dir_files tree p).isEmpty = false := by
      cases hd : dir_files tree p with
      | nil => exact absurd hd hfiles
      | cons x xs => simp [List.isEmpty]
    simp [resolve, hexc, hne, hinterp]

/-- C3 witness: the missing-path and empty-declaration failures at concrete
inputs matching the tests. -/
theorem c3_missing_and_empty_build_files_witness :
    resolve cfg0 treeSuggest (Address.mk ["non-existent-path"] "a") =
      Except.error (MapperError.invalidBuildFileReference
        ("non-existent-path does not contain any BUILD files.")) ∧
    resolve cfg0 treeEmptyDecl (Address.mk [] "foo") =
      Except.error (MapperError.emptyBuildFileError
        ("No addresses defined in BUILD files at .")) := by
  constructor
  · exact ((c3_missing_and_empty_build_files.1 cfg0 treeSuggest ["non-existent-path"] "a"
      rfl rfl).1)
  · exact c3_missing_and_empty_build_files.2.2 cfg0 treeEmptyDecl [] "foo" rfl
      (by decide) rfl

/-!
## Claim C4: spec-parser normalization
-/

/-- C4: the spec parser normalizes away `.` and `..` segments (so
`//./a/../:root` parses identically to `:root`), a trailing-slash path with no
colon parses to a Single spec whose name defaults to the last segment (so
`a/` yields `Single(path="a", name="a")`), and any two raw forms that parse to
the same spec resolve to the same address. -/
theorem c4_parse_normalization :
    parse_spec "//./a/../:root" [] = parse_spec ":root" [] ∧
    parse_spec "a/" [] = Spec.single ["a"] (some "a") ∧
    (∀ (cfg : MapperConfig) (tree : ProjectTree) (raw1 raw2 : String) (rel : List String),
      parse_spec raw1 rel = parse_spec raw2 rel →
      ∀ a : Address,
        (spec_to_address cfg tree raw1 rel = Except.ok a ↔
         spec_to_address cfg tree raw2 rel = Except.ok a)) := by
  refine ⟨by decide, by decide, ?_⟩
  intro cfg tree raw1 raw2 rel h a
  simp only [spec_to_address, h]
  cases hp : parse_spec raw2 rel with
  | single p n? =>
    cases n? with
    | none => simp
    | some n =>
      cases hr : resolve cfg tree (Address.mk p n) with
      | ok r => simp [hr]
      | error e => simp [hr]
  | siblings p => simp
  | descendants p => simp

/-- C4 witness: the resolution-congruence part applied to the two equivalent
raw forms of the root target. -/
theorem c4_parse_normalization_witness :
    spec_to_address cfg0 treeScan "//./a/../:root" [] = Except.ok (Address.mk [] "root") ↔
    spec_to_address cfg0 treeScan ":root" [] = Except.ok (Address.mk [] "root") :=
  c4_parse_normalization.2.2 cfg0 treeScan "//./a/../:root" ":root" []
    (by decide) (Address.mk [] "root")

/-!
## Walk lemmas
-/

theorem mem_dir_addrs (cfg : MapperConfig) (dpath : List String)
    (pairs : List (String × String)) (a : Address) :
    a ∈ (pairs.map (fun pr => Address.mk dpath pr.2)).filter (fun x => !excludedBy cfg x) ↔
      a.spec_path = dpath ∧ a.target_name ∈ pairs.map Prod.snd ∧ excludedBy cfg a = false := by
  constructor
  · intro h
    have h1 := List.mem_filter.1 h
    obtain ⟨pr, hpr, hEq⟩ := List.mem_map.1 h1.1
    subst hEq
    refine ⟨rfl, List.mem_map.2 ⟨pr, hpr, rfl⟩, ?_⟩
    simpa using h1.2
  · rintro ⟨hsp, htn, hexc⟩
    obtain ⟨pr, hpr, hpr2⟩ := List.mem_map.1 htn
    apply List.mem_filter.2
    refine ⟨List.mem_map.2 ⟨pr, hpr, ?_⟩, by simp [hexc]⟩
    cases a with
    | mk sp tn =>
      simp only [Address.mk.injEq]
      exact ⟨hsp.symm, hpr2⟩

theorem mem_walk_dirs (cfg : MapperConfig) (ds : List DirEntry) (a : Address) :
    a ∈ (walk_dirs cfg ds).1 ↔
      ∃ d, d ∈ ds ∧ ∃ pairs, interpret_files d.path d.files = Except.ok pairs ∧
        a.spec_path = d.path ∧ a.target_name ∈ pairs.map Prod.snd ∧
        excludedBy cfg a = false := by
  induction ds with
  | nil => simp [walk_dirs]
  | cons d rest ih =>
    simp only [walk_dirs]
    cases hi : interpret_files d.path d.files with
    | error e =>
      rw [ih]
      constructor
      · rintro ⟨d', hd', hrest⟩
        exact ⟨d', List.mem_cons_of_mem _ hd', hrest⟩
      · rintro ⟨d', hd', pairs, hp, hrest⟩
        rcases List.mem_cons.1 hd' with hEq | hmem
        · subst hEq
          rw [hi] at hp
          cases hp
        · exact ⟨d', hmem, pairs, hp, hrest⟩
    | ok pairs =>
      simp only [List.mem_append, mem_dir_addrs, ih]
      constructor
      · rintro (⟨hsp, htn, hexc⟩ | ⟨d', hd', hrest⟩)
        · exact ⟨d, List.mem_cons_self _ _, pairs, hi, hsp, htn, hexc⟩
        · exact ⟨d', List.mem_cons_of_mem _ hd', hrest⟩
      · rintro ⟨d', hd', pairs', hp, hsp, htn, hexc⟩
        rcases List.mem_cons.1 hd' with hEq | hmem
        · subst hEq
          rw [hi] at hp
          cases hp
          exact Or.inl ⟨hsp, htn, hexc⟩
        · exact Or.inr ⟨d', hmem, pairs', hp, hsp, htn, hexc⟩

theorem walk_dirs_errs_nil (cfg : MapperConfig) (ds : List DirEntry)
    (h : ∀ d ∈ ds, ∃ prs, interpret_files d.path d.files = Except.ok prs) :
    (walk_dirs cfg ds).2 = [] := by
  induction ds with
  | nil => simp [walk_dirs]
  | cons d rest ih =>
    obtain ⟨prs, hprs⟩ := h d (List.mem_cons_self _ _)
    simp only [walk_dirs, hprs]
    exact ih (fun d' hd' => h d' (List.mem_cons_of_mem _ hd'))

theorem mem_collect_specs_not_excluded (cfg : MapperConfig) (tree : ProjectTree)
    (specs : List Spec) (as : List Address) (errs : List DirErr)
    (h : collect_specs cfg tree specs = Except.ok (as, errs)) :
    ∀ a ∈ as, excludedBy cfg a = false := by
  induction specs generalizing as errs with
  | nil =>
    simp only [collect_specs, Except.ok.injEq, Prod.mk.injEq] at h
    rw [← h.1]
    intro a ha
    simp at ha
  | cons s rest ih =>
    cases s with
    | single p n? =>
      cases n? with
      | none => simp [collect_specs] at h
      | some n =>
        simp only [collect_specs] at h
        cases hr : resolve cfg tree (Address.mk p n) with
        | error e => rw [hr] at h; cases h
        | ok r =>
          rw [hr] at h
          cases hc : collect_specs cfg tree rest with
          | error e => rw [hc] at h; cases h
          | ok acc =>
            rw [hc] at h
            simp only [Except.ok.injEq, Prod.mk.injEq] at h
            rw [← h.1]
            intro a ha
            rcases List.mem_cons.1 ha with hEq | hmem
            · subst hEq
              have := resolve_ok_addr cfg tree (Address.mk p n) r hr
              rw [this.1]
              exact this.2
            · exact ih acc.1 acc.2 (by rw [hc]) a hmem
    | siblings p =>
      simp only [collect_specs] at h
      cases hc : collect_specs cfg tree rest with
      | error e => rw [hc] at h; cases h
      | ok acc =>
        rw [hc] at h
        simp only [Except.ok.injEq, Prod.mk.injEq] at h
        rw [← h.1]
        intro a ha
        rcases List.mem_append.1 ha with hmem | hmem
        · exact ((mem_walk_dirs cfg _ a).1 hmem).choose_spec.2.choose_spec.2.2.2
        · exact ih acc.1 acc.2 (by rw [hc]) a hmem
    | descendants p =>
      simp only [collect_specs] at h
      cases hc : collect_specs cfg tree rest with
      | error e => rw [hc] at h; cases h
      | ok acc =>
        rw [hc] at h
        simp only [Except.ok.injEq, Prod.mk.injEq] at h
        rw [← h.1]
        intro a ha
        rcases List.mem_append.1 ha with hmem | hmem
        · exact ((mem_walk_dirs cfg _ a).1 hmem).choose_spec.2.choose_spec.2.2.2
        · exact ih acc.1 acc.2 (by rw [hc]) a hmem

/-!
## Claim C6: exclude patterns
-/

/-- C6: resolving an address whose full spec string matches a configured
exclude pattern fails with `InvalidAddressError` whose message says it is
excluded by the exclude option, and the scanning operations
(`addresses_in_spec_path`, `scan_specs`, `scan_addresses`) never emit an
excluded address. -/
theorem c6_exclude_patterns :
    (∀ (cfg : MapperConfig) (tree : ProjectTree) (a : Address),
      excludedBy cfg a = true →
      resolve cfg tree a =
        Except.error (MapperError.invalidAddressError
          (a.spec ++ " is excluded by exclude_target_regexp option")) ∧
      ContainsStr "is excluded by exclude_target_regexp option"
        (a.spec ++ " is excluded by exclude_target_regexp option")) ∧
    (∀ (cfg : MapperConfig) (tree : ProjectTree) (p : List String) (l : List Address),
      addresses_in_spec_path cfg tree p = Except.ok l →
      ∀ a ∈ l, excludedBy cfg a = false) ∧
    (∀ (cfg : MapperConfig) (tree : ProjectTree) (specs : List Spec) (ff : Bool)
        (l : List Address),
      scan_specs cfg tree specs ff = Except.ok l →
      ∀ a ∈ l, excludedBy cfg a = false) ∧
    (∀ (cfg : MapperConfig) (tree : ProjectTree) (buildRoot : String)
        (rootOpt : Option String) (l : List Address),
      scan_addresses cfg tree buildRoot rootOpt = Except.ok l →
      ∀ a ∈ l, excludedBy cfg a = false) := by
  refine ⟨?_, ?_, ?_, ?_⟩
  · intro cfg tree a hexc
    refine ⟨resolve_excluded cfg tree a hexc, ?_⟩
    exact ⟨(a.spec ++ " ").data, [], by simp [data_append]⟩
  · intro cfg tree p l h a ha
    simp only [addresses_in_spec_path] at h
    split at h
    · simp only [Except.ok.injEq] at h
      rw [← h] at ha
      simp at ha
    · split at h
      · cases h
      · split at h
        · cases h
        · simp only [Except.ok.injEq] at h
          rw [← h] at ha
          exact ((mem_dir_addrs cfg p _ a).1 ha).2.2
  · intro cfg tree specs ff l h a ha
    cases hc : collect_specs cfg tree specs with
    | error e => simp [scan_specs, hc] at h
    | ok acc =>
      obtain ⟨as0, errs0⟩ := acc
      cases errs0 with
      | nil =>
        simp only [scan_specs, hc, Except.ok.injEq] at h
        rw [← h] at ha
        exact mem_collect_specs_not_excluded cfg tree specs as0 []
          hc a (List.mem_dedup.1 ha)
      | cons e rest =>
        by_cases hff : ff = true
        · simp [scan_specs, hc, hff] at h
        · simp only [Bool.not_eq_true] at hff
          simp [scan_specs, hc, hff] at h
  · intro cfg tree buildRoot rootOpt l h a ha
    cases hroot : rel_root buildRoot rootOpt with
    | none => simp [scan_addresses, hroot] at h
    | some rel =>
      cases herrs : (walk_dirs cfg (spec_dirs cfg tree (Spec.descendants rel))).2 with
      | nil =>
        simp only [scan_addresses, hroot, herrs, Except.ok.injEq] at h
        rw [← h] at ha
        exact ((mem_walk_dirs cfg _ a).1
          (List.mem_dedup.1 ha)).choose_spec.2.choose_spec.2.2.2
      | cons e rest => simp [scan_addresses, hroot, herrs] at h

/-- C6 witness: with the `.*:b.*` exclude pattern, resolving `:boo` fails with
the exclusion error. -/
theorem c6_exclude_patterns_witness :
    resolve cfgExclude treeSuggest (Address.mk [] "boo") =
      Except.error (MapperError.invalidAddressError
        (":boo is excluded by exclude_target_regexp option")) :=
  ((c6_exclude_patterns.1 cfgExclude treeSuggest (Address.mk [] "boo")) (by decide)).1

/-!
## Claim C2: missing-target suggestions
-/

theorem isEmpty_false_of_ne_nil {α : Type} {l : List α} (h : l ≠ []) :
    l.isEmpty = false := by
  cases l with
  | nil => exact absurd rfl h
  | cons x xs => simp [List.isEmpty]

/-- C2 (counterexample): for a miss on `bar` at a path whose single build file
declares `foo`, the message renders the suggested name as `:foo` on its own
line — not as the bare space-separated `foo` the claim describes. -/
theorem c2_suggestions_counterexample :
    resolve cfg0 treeOneFile (Address.mk [] "bar") =
      Except.error (MapperError.addressNotInBuildFile
        ("bar was not found in BUILD files from . Perhaps you meant:\n  :foo")) ∧
    ("bar was not found in BUILD files from . Perhaps you meant:\n  :foo" : String) ≠
      "bar was not found in BUILD files from . Perhaps you meant: foo" := by
  constructor
  · rfl
  · decide

/-- C2 (amended): resolving a missing target name against a path with declared
names fails with `AddressNotInBuildFile`; when all declared names come from a
single file the message renders "Perhaps you meant:" followed by the names
sorted lexicographically, each on its own line as `:name`; when the names come
from more than one file it renders "Perhaps you meant one of:" followed by one
line per name of the form `:name (from file)`, entries sorted lexicographically
by name. -/
theorem c2_suggestions_amended :
    ∀ (cfg : MapperConfig) (tree : ProjectTree) (p : List String) (n : String)
      (pairs : List (String × String)),
      excludedBy cfg (Address.mk p n) = false →
      dir_files tree p ≠ [] →
      interpret_files p (dir_files tree p) = Except.ok pairs →
      pairs ≠ [] →
      (n ∈ pairs.map Prod.snd → False) →
      resolve cfg tree (Address.mk p n) =
        Except.error (MapperError.addressNotInBuildFile
          (notFoundMsg (Address.mk p n) pairs)) ∧
      List.Sorted (fun x y : String => x ≤ y)
        ((List.insertionSort pairNameLE pairs).map Prod.snd) ∧
      (List.insertionSort pairNameLE pairs).Perm pairs ∧
      ((pairs.map Prod.fst).dedup.length = 1 →
        notFoundMsg (Address.mk p n) pairs =
          n ++ " was not found in BUILD files from " ++ pathStr p ++ ". " ++
            ("Perhaps you meant:" ++
              String.join ((List.insertionSort pairNameLE pairs).map
                (fun pr => "\n  :" ++ pr.2)))) ∧
      ((pairs.map Prod.fst).dedup.length ≠ 1 →
        notFoundMsg (Address.mk p n) pairs =
          n ++ " was not found in BUILD files from " ++ pathStr p ++ ". " ++
            ("Perhaps you meant one of:" ++
              String.join ((List.insertionSort pairNameLE pairs).map
                (fun pr => "\n  :" ++ pr.2 ++ " (from " ++ pr.1 ++ ")")))) := by
  intro cfg tree p n pairs hexc hne hinterp hpne hmiss
  have hfind : pairs.find? (fun pr => pr.2 == n) = none := by
    apply List.find?_eq_none.2
    intro x hx hpx
    exact hmiss (List.mem_map.2 ⟨x, hx, by simpa using hpx⟩)
  refine ⟨?_, ?_, ?_, ?_, ?_⟩
  · simp [resolve, hexc, isEmpty_false_of_ne_nil hne, hinterp,
      isEmpty_false_of_ne_nil hpne, hfind]
  · exact (List.pairwise_map).2 (List.sorted_insertionSort pairNameLE pairs)
  · exact List.perm_insertionSort pairNameLE pairs
  · intro hone
    simp [notFoundMsg, hone]
  · intro hmany
    simp [notFoundMsg, hmany]

/-- C2 witness: the two-file scenario of the tests — a miss on `bar` at the
root, whose files declare `foo` (from `BUILD`) and `aoo`, `boo` (from
`BUILD.suffix`) — produces the grouped, name-sorted message. -/
theorem c2_suggestions_amended_witness :
    resolve cfg0 treeSuggest (Address.mk [] "bar") =
      Except.error (MapperError.addressNotInBuildFile
        (notFoundMsg (Address.mk [] "bar")
          [("BUILD", "foo"), ("BUILD.suffix", "aoo"), ("BUILD.suffix", "boo")])) :=
  (c2_suggestions_amended cfg0 treeSuggest [] "bar"
    [("BUILD", "foo"), ("BUILD.suffix", "aoo"), ("BUILD.suffix", "boo")]
    (by decide) (by decide) (by decide) (by decide) (by decide)).1

/-!
## Claim C1: fail-fast vs aggregate scanning
-/

theorem containsStr_trans (s t u : String) (h1 : ContainsStr s t) (h2 : ContainsStr t u) :
    ContainsStr s u := by
  obtain ⟨x1, y1, hx1⟩ := h1
  obtain ⟨x2, y2, hx2⟩ := h2
  exact ⟨x2 ++ x1, y1 ++ y2, by simp [hx2, hx1]⟩

theorem containsStr_file_renderDirErr (e : DirErr) : ContainsStr e.file (renderDirErr e) :=
  ⟨(e.msg ++ "\n while executing BUILD file BuildFile(").data,
   (")" ++ ("\n Loading addresses from '" ++ (pathStr e.dirPath ++ "' failed."))).data,
   by simp [renderDirErr, interpErrMsg, data_append]⟩

theorem containsStr_path_renderDirErr (e : DirErr) :
    ContainsStr (pathStr e.dirPath) (renderDirErr e) :=
  ⟨(interpErrMsg e.file e.msg ++ "\n Loading addresses from '").data,
   ("' failed." : String).data,
   by simp [renderDirErr, data_append]⟩

theorem containsStr_fst_aggregate (e1 e2 : DirErr) (specs : List Spec) :
    ContainsStr (renderDirErr e1) (aggregate_msg [e1, e2] specs) :=
  ⟨("--------------------\n" : String).data,
   ("\n" ++ (render_entries [renderDirErr e2] ++
     ("Invalid BUILD files for [" ++ joinComma (specs.map Spec.render) ++ "]"))).data,
   by simp [aggregate_msg, render_entries, data_append]⟩

theorem containsStr_snd_aggregate (e1 e2 : DirErr) (specs : List Spec) :
    ContainsStr (renderDirErr e2) (aggregate_msg [e1, e2] specs) :=
  ⟨("--------------------\n" ++ (renderDirErr e1 ++ ("\n" ++ "--------------------\n"))).data,
   ("\n" ++ ("Invalid BUILD files for [" ++ joinComma (specs.map Spec.render) ++ "]")).data,
   by simp [aggregate_msg, render_entries, data_append]⟩

/-- C1: over a tree whose batch walk collects exactly two per-directory
failures, a `fail_fast = false` scan raises one aggregate error whose message
carries both failures (each annotated with its file and path, each preceded by
a delimiter line) and ends with a summary naming the spec set, while a
`fail_fast = true` scan raises one error that consists solely of the first
failure's rendering (identifying that file and path only). -/
theorem c1_fail_fast_vs_aggregate :
    ∀ (cfg : MapperConfig) (tree : ProjectTree) (specs : List Spec)
      (as : List Address) (e1 e2 : DirErr),
      collect_specs cfg tree specs = Except.ok (as, [e1, e2]) →
      scan_specs cfg tree specs true =
        Except.error (MapperError.buildFileScanError (renderDirErr e1)) ∧
      ContainsStr e1.file (renderDirErr e1) ∧
      ContainsStr (pathStr e1.dirPath) (renderDirErr e1) ∧
      scan_specs cfg tree specs false =
        Except.error (MapperError.buildFileScanError (aggregate_msg [e1, e2] specs)) ∧
      ContainsStr (renderDirErr e1) (aggregate_msg [e1, e2] specs) ∧
      ContainsStr (renderDirErr e2) (aggregate_msg [e1, e2] specs) ∧
      ContainsStr e1.file (aggregate_msg [e1, e2] specs) ∧
      ContainsStr e2.file (aggregate_msg [e1, e2] specs) ∧
      EndsStr ("Invalid BUILD files for [" ++ joinComma (specs.map Spec.render) ++ "]")
        (aggregate_msg [e1, e2] specs) := by
  intro cfg tree specs as e1 e2 h
  refine ⟨?_, containsStr_file_renderDirErr e1, containsStr_path_renderDirErr e1,
    ?_, containsStr_fst_aggregate e1 e2 specs, containsStr_snd_aggregate e1 e2 specs,
    ?_, ?_, ?_⟩
  · simp [scan_specs, h]
  · simp [scan_specs, h]
  · exact containsStr_trans _ _ _ (containsStr_file_renderDirErr e1)
      (containsStr_fst_aggregate e1 e2 specs)
  · exact containsStr_trans _ _ _ (containsStr_file_renderDirErr e2)
      (containsStr_snd_aggregate e1 e2 specs)
  · exact ⟨(render_entries [renderDirErr e1, renderDirErr e2]).data,
      by simp [aggregate_msg, data_append]⟩

/-- C1 witness: the test's tree — clean targets plus broken `bad/a/BUILD` and
`bad/b/BUILD` — scanned over `[::]`: fail-fast raises only the `bad/a`
failure, the aggregate mode raises the combined message. -/
theorem c1_fail_fast_vs_aggregate_witness :
    scan_specs cfg0 treeScan [Spec.descendants []] true =
      Except.error (MapperError.buildFileScanError
        (renderDirErr (DirErr.mk "bad/a/BUILD" ["bad", "a"] "name 'a_is_bad' is not defined"))) ∧
    scan_specs cfg0 treeScan [Spec.descendants []] false =
      Except.error (MapperError.buildFileScanError
        (aggregate_msg
          [DirErr.mk "bad/a/BUILD" ["bad", "a"] "name 'a_is_bad' is not defined",
           DirErr.mk "bad/b/BUILD" ["bad", "b"] "name 'b_is_bad' is not defined"]
          [Spec.descendants []])) := by
  have h := c1_fail_fast_vs_aggregate cfg0 treeScan [Spec.descendants []]
    [Address.mk [] "root", Address.mk ["a"] "a", Address.mk ["a"] "b",
     Address.mk ["a", "b"] "b", Address.mk ["a", "b"] "c"]
    (DirErr.mk "bad/a/BUILD" ["bad", "a"] "name 'a_is_bad' is not defined")
    (DirErr.mk "bad/b/BUILD" ["bad", "b"] "name 'b_is_bad' is not defined")
    (by decide)
  exact ⟨h.1, h.2.2.2.1⟩

/-!
## Claim C7: scan roots
-/

theorem effIgnoredB_nil (cfg : MapperConfig) (hig : cfg.build_ignore_patterns = [])
    (root q : List String) : effIgnoredB cfg root q = false := by
  simp [effIgnoredB, matchesIgnoreB, hig]

theorem excludedBy_nil (cfg : MapperConfig) (hex : cfg.exclude_target_regexps = [])
    (a : Address) : excludedBy cfg a = false := by
  simp [excludedBy, hex]

/-- C7: a supplied scan root that is neither the build root nor a descendant
of it makes `scan_addresses` fail with `InvalidRootError`; a valid root (with
no ignore or exclude configuration and cleanly interpreting directories)
yields exactly the addresses declared at the corresponding relative directory
and beneath it. -/
theorem c7_scan_roots :
    (∀ (cfg : MapperConfig) (tree : ProjectTree) (buildRoot r : String),
      r ≠ buildRoot →
      startsWithB (buildRoot.data ++ ['/']) r.data = false →
      scan_addresses cfg tree buildRoot (some r) =
        Except.error (MapperError.invalidRootError
          ("Could not find scan root under build root " ++ buildRoot ++ "."))) ∧
    (∀ (cfg : MapperConfig) (tree : ProjectTree) (buildRoot : String)
        (rootOpt : Option String) (rel : List String),
      cfg.build_ignore_patterns = [] →
      cfg.exclude_target_regexps = [] →
      rel_root buildRoot rootOpt = some rel →
      (∀ d ∈ tree, ∃ prs, interpret_files d.path d.files = Except.ok prs) →
      ∃ l, scan_addresses cfg tree buildRoot rootOpt = Except.ok l ∧
        ∀ a : Address,
          (a ∈ l ↔ ∃ d, d ∈ tree ∧ startsWithB rel d.path = true ∧
            ∃ prs, interpret_files d.path d.files = Except.ok prs ∧
              a.spec_path = d.path ∧ a.target_name ∈ prs.map Prod.snd)) := by
  constructor
  · intro cfg tree buildRoot r hne hsw
    have hroot : rel_root buildRoot (some r) = none := by
      simp [rel_root, hne, hsw]
    simp [scan_addresses, hroot]
  · intro cfg tree buildRoot rootOpt rel hig hex hroot hclean
    have hsub : ∀ d ∈ spec_dirs cfg tree (Spec.descendants rel),
        ∃ prs, interpret_files d.path d.files = Except.ok prs := by
      intro d hd
      have hd' : d ∈ tree ∧ startsWithB rel d.path = true ∧
          effIgnoredB cfg rel d.path = false := by
        simpa [spec_dirs, List.mem_filter] using hd
      exact hclean d hd'.1
    have herrs := walk_dirs_errs_nil cfg (spec_dirs cfg tree (Spec.descendants rel)) hsub
    refine ⟨(walk_dirs cfg (spec_dirs cfg tree (Spec.descendants rel))).1.dedup, ?_, ?_⟩
    · simp [scan_addresses, hroot, herrs]
    · intro a
      rw [List.mem_dedup, mem_walk_dirs]
      constructor
      · rintro ⟨d, hd, prs, hprs, hsp, htn, hexc⟩
        have hd' : d ∈ tree ∧ startsWithB rel d.path = true ∧
            effIgnoredB cfg rel d.path = false := by
          simpa [spec_dirs, List.mem_filter] using hd
        exact ⟨d, hd'.1, hd'.2.1, prs, hprs, hsp, htn⟩
      · rintro ⟨d, hd, hsw, prs, hprs, hsp, htn⟩
        refine ⟨d, ?_, prs, hprs, hsp, htn, excludedBy_nil cfg hex a⟩
        simp [spec_dirs, List.mem_filter, hd, hsw, effIgnoredB_nil cfg hig]

/-- C7 witness: the invalid-root failure on the relative string `subdir`
(which is not under the absolute build root `/root`). -/
theorem c7_scan_roots_witness :
    scan_addresses cfg0 treeSuggest "/root" (some "subdir") =
      Except.error (MapperError.invalidRootError
        ("Could not find scan root under build root /root.")) :=
  c7_scan_roots.1 cfg0 treeSuggest "/root" "subdir" (by decide) (by decide)

/-!
## Claim C5: ignore patterns
-/

theorem take_startsWithB [DecidableEq α] (l : List α) (k : Nat) :
    startsWithB (l.take k) l = true :=
  (startsWithB_eq_true_iff _ _).2 ⟨l.drop k, List.take_append_drop k l⟩

theorem effIgnoredB_of_matches (cfg : MapperConfig) (root q s : List String)
    (hrq : startsWithB root q = true) (hqs : startsWithB q s = true)
    (hm : matchesIgnoreB cfg q = true) : effIgnoredB cfg root s = true := by
  obtain ⟨t, ht⟩ := (startsWithB_eq_true_iff q s).1 hqs
  have htake : s.take q.length = q := by rw [← ht]; exact List.take_left q t
  have hlen : q.length ≤ s.length := by
    rw [← ht, List.length_append]
    exact Nat.le_add_right _ _
  apply List.any_eq_true.2
  refine ⟨q.length, List.mem_range.2 (Nat.lt_succ_of_le hlen), ?_⟩
  rw [htake]
  simp [hrq, hm]

theorem effIgnoredB_cons_iff (pat : List String → Bool) (ps : List (List String → Bool))
    (ex : List (String → Bool)) (root q : List String) :
    effIgnoredB (MapperConfig.mk (pat :: ps) ex) root q = true ↔
      ((∃ k, k ≤ q.length ∧ startsWithB root (q.take k) = true ∧ pat (q.take k) = true) ∨
       effIgnoredB (MapperConfig.mk ps ex) root q = true) := by
  simp only [effIgnoredB, List.any_eq_true, List.mem_range, Nat.lt_succ_iff,
    matchesIgnoreB, List.any_cons, Bool.and_eq_true, Bool.or_eq_true]
  constructor
  · rintro ⟨k, hk, hsw, hp | hrest⟩
    · exact Or.inl ⟨k, hk, hsw, hp⟩
    · exact Or.inr ⟨k, hk, hsw, hrest⟩
  · rintro (⟨k, hk, hsw, hp⟩ | ⟨k, hk, hsw, hrest⟩)
    · exact ⟨k, hk, hsw, Or.inl hp⟩
    · exact ⟨k, hk, hsw, Or.inr hrest⟩

theorem spec_dirs_ignored_deletion (cfg : MapperConfig) (p : List String)
    (l1 l2 : List DirEntry) (d : DirEntry) (h : effIgnoredB cfg p d.path = true) :
    spec_dirs cfg (l1 ++ d :: l2) (Spec.descendants p) =
      spec_dirs cfg (l1 ++ l2) (Spec.descendants p) := by
  simp [spec_dirs, List.filter_append, List.filter_cons, h]

/-- C5: a directory whose path is covered by an ignore pattern contributes
nothing to `scan_addresses` — deleting it (whatever its files, malformed ones
included) from the tree leaves the scan's entire outcome unchanged; no
returned address lies at or beneath a directory matched by an ignore pattern;
and an address whose chain of enclosing directories is untouched by a pattern
is returned with the pattern configured exactly when it is returned without
it. -/
theorem c5_ignore_patterns :
    (∀ (cfg : MapperConfig) (buildRoot : String) (rootOpt : Option String)
        (rel : List String) (l1 l2 : List DirEntry) (d : DirEntry),
      rel_root buildRoot rootOpt = some rel →
      effIgnoredB cfg rel d.path = true →
      scan_addresses cfg (l1 ++ d :: l2) buildRoot rootOpt =
        scan_addresses cfg (l1 ++ l2) buildRoot rootOpt) ∧
    (∀ (cfg : MapperConfig) (tree : ProjectTree) (buildRoot : String)
        (rootOpt : Option String) (rel : List String) (l : List Address) (a : Address),
      rel_root buildRoot rootOpt = some rel →
      scan_addresses cfg tree buildRoot rootOpt = Except.ok l →
      a ∈ l →
      ∀ q, matchesIgnoreB cfg q = true →
        ¬(startsWithB rel q = true ∧ startsWithB q a.spec_path = true)) ∧
    (∀ (pat : List String → Bool) (ps : List (List String → Bool))
        (ex : List (String → Bool)) (tree : ProjectTree) (rel : List String) (a : Address),
      (∀ q, startsWithB rel q = true → startsWithB q a.spec_path = true → pat q = false) →
      (a ∈ (walk_dirs (MapperConfig.mk (pat :: ps) ex)
          (spec_dirs (MapperConfig.mk (pat :: ps) ex) tree (Spec.descendants rel))).1 ↔
       a ∈ (walk_dirs (MapperConfig.mk ps ex)
          (spec_dirs (MapperConfig.mk ps ex) tree (Spec.descendants rel))).1)) := by
  refine ⟨?_, ?_, ?_⟩
  · intro cfg buildRoot rootOpt rel l1 l2 d hroot hig
    simp only [scan_addresses, hroot]
    rw [spec_dirs_ignored_deletion cfg rel l1 l2 d hig]
  · intro cfg tree buildRoot rootOpt rel l a hroot hscan ha q hm ⟨hswrq, hswqa⟩
    cases herrs : (walk_dirs cfg (spec_dirs cfg tree (Spec.descendants rel))).2 with
    | cons e rest => simp [scan_addresses, hroot, herrs] at hscan
    | nil =>
      simp only [scan_addresses, hroot, herrs, Except.ok.injEq] at hscan
      rw [← hscan] at ha
      obtain ⟨d, hd, prs, hprs, hsp, htn, hexc⟩ :=
        (mem_walk_dirs cfg _ a).1 (List.mem_dedup.1 ha)
      have hd' : d ∈ tree ∧ startsWithB rel d.path = true ∧
          effIgnoredB cfg rel d.path = false := by
        simpa [spec_dirs, List.mem_filter] using hd
      rw [hsp] at hswqa
      have := effIgnoredB_of_matches cfg rel q d.path hswrq hswqa hm
      rw [hd'.2.2] at this
      cases this
  · intro pat ps ex tree rel a hfree
    rw [mem_walk_dirs, mem_walk_dirs]
    constructor
    · rintro ⟨d, hd, prs, hprs, hsp, htn, hexc⟩
      have hd' : d ∈ tree ∧ startsWithB rel d.path = true ∧
          effIgnoredB (MapperConfig.mk (pat :: ps) ex) rel d.path = false := by
        simpa [spec_dirs, List.mem_filter] using hd
      have hig2 : effIgnoredB (MapperConfig.mk ps ex) rel d.path = false := by
        cases hb : effIgnoredB (MapperConfig.mk ps ex) rel d.path with
        | false => rfl
        | true =>
          have := (effIgnoredB_cons_iff pat ps ex rel d.path).2 (Or.inr hb)
          rw [hd'.2.2] at this
          cases this
      refine ⟨d, ?_, prs, hprs, hsp, htn, hexc⟩
      simp [spec_dirs, List.mem_filter, hd'.1, hd'.2.1, hig2]
    · rintro ⟨d, hd, prs, hprs, hsp, htn, hexc⟩
      have hd' : d ∈ tree ∧ startsWithB rel d.path = true ∧
          effIgnoredB (MapperConfig.mk ps ex) rel d.path = false := by
        simpa [spec_dirs, List.mem_filter] using hd
      have hig1 : effIgnoredB (MapperConfig.mk (pat :: ps) ex) rel d.path = false := by
        cases hb : effIgnoredB (MapperConfig.mk (pat :: ps) ex) rel d.path with
        | false => rfl
        | true =>
          rcases (effIgnoredB_cons_iff pat ps ex rel d.path).1 hb with
            ⟨k, hk, hsw, hp⟩ | hrest
          · have hfalse := hfree (d.path.take k) hsw
              (by rw [hsp]; exact take_startsWithB d.path k)
            rw [hfalse] at hp
            cases hp
          · rw [hd'.2.2] at hrest
            cases hrest
      refine ⟨d, ?_, prs, hprs, hsp, htn, hexc⟩
      simp [spec_dirs, List.mem_filter, hd'.1, hd'.2.1, hig1]

/-- C5 witness: deleting the ignored directory `some` (holding a malformed
build file) from the tree does not change the scan at all. -/
theorem c5_ignore_patterns_witness :
    scan_addresses cfgIgnoreSome
        ([DirEntry.mk [] [okFile "BUILD" ["root"]], DirEntry.mk ["a"] [okFile "BUILD" ["a", "b"]]] ++
          DirEntry.mk ["some"] [badFile "BUILD" "COMPLETELY BOGUS BUILDFILE)"] :: [])
        "/root" none =
      scan_addresses cfgIgnoreSome
        ([DirEntry.mk [] [okFile "BUILD" ["root"]], DirEntry.mk ["a"] [okFile "BUILD" ["a", "b"]]] ++ [])
        "/root" none :=
  c5_ignore_patterns.1 cfgIgnoreSome "/root" none []
    [DirEntry.mk [] [okFile "BUILD" ["root"]], DirEntry.mk ["a"] [okFile "BUILD" ["a", "b"]]] []
    (DirEntry.mk ["some"] [badFile "BUILD" "COMPLETELY BOGUS BUILDFILE)"])
    rfl (by decide)

/-!
## Parser lemmas for the round trip
-/

theorem rpartitionColon_eq_none (l : List Char) (h : (':' : Char) ∉ l) :
    rpartitionColon l = none := by
  induction l with
  | nil => rfl
  | cons c rest ih =>
    simp only [rpartitionColon]
    rw [ih (fun hc => h (List.mem_cons_of_mem _ hc))]
    have hc : ¬(c = ':') := fun hc => h (hc ▸ List.mem_cons_self _ _)
    simp [hc]

theorem rpartitionColon_append (P n : List Char) (h : (':' : Char) ∉ n) :
    rpartitionColon (P ++ ':' :: n) = some (P, n) := by
  induction P with
  | nil =>
    simp only [List.nil_append, rpartitionColon]
    rw [rpartitionColon_eq_none n h]
    simp
  | cons c P ih =>
    simp only [List.cons_append, rpartitionColon, List.append_eq]
    rw [ih]

theorem pathStr_cons_data (s r0 : String) (rest : List String) :
    (pathStr (s :: r0 :: rest)).data = s.data ++ '/' :: (pathStr (r0 :: rest)).data := by
  have h1 : pathStr (s :: r0 :: rest) = s ++ "/" ++ pathStr (r0 :: rest) := rfl
  have h2 : ("/" : String).data = ['/'] := rfl
  rw [h1, data_append, data_append, h2]
  simp

theorem cleanSegB_spec (s : String) (h : cleanSegB s = true) :
    s.data ≠ [] ∧ ('/' : Char) ∉ s.data ∧ (':' : Char) ∉ s.data ∧ s ≠ "." ∧ s ≠ ".." := by
  simp only [cleanSegB, Bool.and_eq_true, Bool.not_eq_true', beq_eq_false_iff_ne,
    List.all_eq_true] at h
  obtain ⟨⟨⟨h1, h2⟩, h3⟩, h4⟩ := h
  refine ⟨?_, ?_, ?_, h3, h4⟩
  · intro hnil
    rw [hnil] at h1
    cases h1
  · intro hmem
    have := h2 '/' hmem
    simp at this
  · intro hmem
    have := h2 ':' hmem
    simp at this

theorem cleanPathB_spec (p : List String) (h : cleanPathB p = true) :
    ∀ s ∈ p, s.data ≠ [] ∧ ('/' : Char) ∉ s.data ∧ (':' : Char) ∉ s.data ∧
      s ≠ "." ∧ s ≠ ".." := by
  intro s hs
  exact cleanSegB_spec s (List.all_eq_true.1 h s hs)

theorem pathStr_no_colon (p : List String)
    (h : ∀ s ∈ p, (':' : Char) ∉ s.data) : (':' : Char) ∉ (pathStr p).data := by
  induction p with
  | nil => intro hc; cases hc
  | cons s rest ih =>
    cases rest with
    | nil => exact h s (List.mem_cons_self _ _)
    | cons r0 rrest =>
      rw [pathStr_cons_data]
      intro hmem
      rcases List.mem_append.1 hmem with h1 | h2
      · exact h s (List.mem_cons_self _ _) h1
      · rcases List.mem_cons.1 h2 with hc | h3
        · exact absurd hc (by decide)
        · exact ih (fun s' hs' => h s' (List.mem_cons_of_mem _ hs')) h3

theorem splitSlashAux_no_slash (cs : List Char) (acc : List Char)
    (h : ('/' : Char) ∉ cs) : splitSlashAux cs acc = [String.mk (acc.reverse ++ cs)] := by
  induction cs generalizing acc with
  | nil => simp [splitSlashAux]
  | cons c rest ih =>
    have hc : ¬(c = '/') := fun hc => h (hc ▸ List.mem_cons_self _ _)
    simp only [splitSlashAux]
    rw [if_neg hc, ih (c :: acc) (fun hm => h (List.mem_cons_of_mem _ hm))]
    simp

theorem splitSlashAux_break (u v acc : List Char) (h : ('/' : Char) ∉ u) :
    splitSlashAux (u ++ '/' :: v) acc =
      String.mk (acc.reverse ++ u) :: splitSlashAux v [] := by
  induction u generalizing acc with
  | nil => simp [splitSlashAux]
  | cons c rest ih =>
    have hc : ¬(c = '/') := fun hc => h (hc ▸ List.mem_cons_self _ _)
    simp only [List.cons_append, splitSlashAux, List.append_eq]
    rw [if_neg hc, ih (c :: acc) (fun hm => h (List.mem_cons_of_mem _ hm))]
    simp

theorem splitSlash_pathStr (p : List String) (hp : p ≠ [])
    (hclean : ∀ s ∈ p, s.data ≠ [] ∧ ('/' : Char) ∉ s.data) :
    splitSlashAux (pathStr p).data [] = p := by
  induction p with
  | nil => exact absurd rfl hp
  | cons s rest ih =>
    cases rest with
    | nil =>
      rw [show pathStr [s] = s from rfl,
        splitSlashAux_no_slash s.data [] (hclean s (List.mem_cons_self _ _)).2]
      simp [strmk_data]
    | cons r0 rrest =>
      rw [pathStr_cons_data,
        splitSlashAux_break s.data _ [] (hclean s (List.mem_cons_self _ _)).2,
        ih (by simp) (fun s' hs' => hclean s' (List.mem_cons_of_mem _ hs'))]
      simp [strmk_data]

theorem normSegs_clean (l : List String)
    (h : ∀ s ∈ l, s ≠ "" ∧ s ≠ "." ∧ s ≠ "..") : normSegs l = l := by
  suffices h' : ∀ acc,
      l.foldl (fun acc s =>
        if s = "" || s = "." then acc
        else if s = ".." then acc.dropLast
        else acc ++ [s]) acc = acc ++ l by
    simpa [normSegs] using h' []
  induction l with
  | nil => intro acc; simp
  | cons s rest ih =>
    intro acc
    obtain ⟨h1, h2, h3⟩ := h s (List.mem_cons_self _ _)
    rw [List.foldl_cons]
    have hstep : (if (decide (s = "") || decide (s = ".")) = true then acc
        else if s = ".." then acc.dropLast else acc ++ [s]) = acc ++ [s] := by
      simp [h1, h2, h3]
    rw [hstep, ih (fun s' hs' => h s' (List.mem_cons_of_mem _ hs')) (acc ++ [s])]
    simp

theorem stripAbs_no_slash (l : List Char) (h : l.head? ≠ some '/') :
    stripAbs l = (false, l) := by
  cases l with
  | nil => rfl
  | cons c t =>
    have hc : ¬(('/' : Char) = c) := fun hcc => h (by rw [← hcc]; rfl)
    simp [stripAbs, startsWithB, hc]

theorem parse_spec_canonical (p : List String) (n : String)
    (hp : cleanPathB p = true) (hn : cleanNameB n = true) :
    parse_spec (pathStr p ++ ":" ++ n) [] = Spec.single p (some n) := by
  have hps := cleanPathB_spec p hp
  have hnn : n.data ≠ [] ∧ (':' : Char) ∉ n.data := by
    simp only [cleanNameB, Bool.and_eq_true, Bool.not_eq_true', List.all_eq_true] at hn
    constructor
    · intro hnil
      rw [hnil] at hn
      simp [List.isEmpty] at hn
    · intro hmem
      have := hn.2 ':' hmem
      simp at this
  have hdata : (pathStr p ++ ":" ++ n).data = (pathStr p).data ++ ':' :: n.data := by
    rw [data_append, data_append, show (":" : String).data = [':'] from rfl]
    simp
  have hnc : (':' : Char) ∉ (pathStr p).data :=
    pathStr_no_colon p (fun s hs => (hps s hs).2.2.1)
  have hhead : (pathStr p ++ ":" ++ n).data.head? ≠ some '/' := by
    rw [hdata]
    cases p with
    | nil =>
      rw [show (pathStr []).data = [] from rfl]
      simp
    | cons s rest =>
      have hs := hps s (List.mem_cons_self _ _)
      obtain ⟨c, cs, hcs⟩ : ∃ c cs, s.data = c :: cs := by
        cases hsd : s.data with
        | nil => exact absurd hsd hs.1
        | cons c cs => exact ⟨c, cs, rfl⟩
      have hcslash : c ≠ '/' := fun hcc =>
        hs.2.1 (by rw [hcs, hcc]; exact List.mem_cons_self _ _)
      have hstart : ∃ tail, (pathStr (s :: rest)).data = c :: tail := by
        cases rest with
        | nil => exact ⟨cs, by rw [show pathStr [s] = s from rfl, hcs]⟩
        | cons r0 rrest =>
          exact ⟨cs ++ '/' :: (pathStr (r0 :: rrest)).data,
            by rw [pathStr_cons_data, hcs]; simp⟩
      obtain ⟨tail, htail⟩ := hstart
      rw [htail]
      simp only [List.cons_append, List.head?_cons, ne_eq, Option.some.injEq]
      exact hcslash
  have hpp : parsePath false [] (pathStr p).data = p := by
    cases p with
    | nil => rfl
    | cons s rest =>
      simp only [parsePath, Bool.false_eq_true, if_false, List.nil_append]
      rw [splitSlash_pathStr (s :: rest) (by simp)
        (fun s' hs' => ⟨(hps s' hs').1, (hps s' hs').2.1⟩)]
      apply normSegs_clean
      intro s' hs'
      refine ⟨?_, (hps s' hs').2.2.2.1, (hps s' hs').2.2.2.2⟩
      intro hEq
      exact (hps s' hs').1 (by rw [hEq])
  simp only [parse_spec]
  rw [stripAbs_no_slash _ hhead]
  simp only [hdata]
  rw [rpartitionColon_append _ _ hnn.2]
  simp only [isEmpty_false_of_ne_nil hnn.1, Bool.false_eq_true, if_false, strmk_data]
  rw [hpp]

/-!
## Claim C8: round trip
-/

/-- C8: for every resolvable address (in canonical form — segments normalized,
name colon-free), rendering it to its canonical spec string, re-parsing that
string as a Single spec, and resolving again yields the original address. -/
theorem c8_roundtrip :
    ∀ (cfg : MapperConfig) (tree : ProjectTree) (a : Address) (r : String × Address),
      resolve cfg tree a = Except.ok r →
      cleanPathB a.spec_path = true →
      cleanNameB a.target_name = true →
      r.2 = a ∧
      parse_spec a.spec [] = Spec.single a.spec_path (some a.target_name) ∧
      spec_to_address cfg tree a.spec [] = Except.ok a := by
  intro cfg tree a r h hp hn
  have h1 := resolve_ok_addr cfg tree a r h
  have hparse : parse_spec a.spec [] = Spec.single a.spec_path (some a.target_name) := by
    have := parse_spec_canonical a.spec_path a.target_name hp hn
    simpa [Address.spec] using this
  refine ⟨h1.1, hparse, ?_⟩
  simp only [spec_to_address, hparse]
  have ha : Address.mk a.spec_path a.target_name = a := by cases a; rfl
  rw [ha, h]
  simp [h1.1]

/-- C8 witness: the address `a/b:c` of the scan tree round-trips through its
spec string. -/
theorem c8_roundtrip_witness :
    parse_spec (Address.mk ["a", "b"] "c").spec [] =
      Spec.single ["a", "b"] (some "c") ∧
    spec_to_address cfg0 treeScan (Address.mk ["a", "b"] "c").spec [] =
      Except.ok (Address.mk ["a", "b"] "c") := by
  have h := c8_roundtrip cfg0 treeScan (Address.mk ["a", "b"] "c")
    ("a/b/BUILD", Address.mk ["a", "b"] "c") (by decide) (by decide) (by decide)
  exact ⟨h.2.1, h.2.2⟩
